import Mathlib

/-!
Shallow embedding of `zerver/worker/deferred_work.py` (the `DeferredWorker.consume`
dispatcher of the deferred-work queue processor) and proofs about it.

The dispatcher receives one job event (a dict with a `type` discriminator),
routes it through an if/elif chain to one handler, and finally logs a
completion line with the event type and elapsed wall time.  Handlers are
modelled as pure functions from an environment (the external collaborators:
the message table, the clock, the export status row, the flaky push bouncer)
and the event to a trace of effects plus a resulting export-row state and an
optional propagated exception.
-/

namespace DeferredWork

/-- Status enum of the RealmExport status record.  The spec calls the success
terminal state COMPLETED (the model keeps that name); STARTED is the implicit
in-progress state. -/
inductive ExportStatus where
  | REQUESTED
  | STARTED
  | COMPLETED
  | FAILED
  deriving DecidableEq, Repr

/-- A RealmExport status record: status plus the failure/request timestamps
touched by this worker. -/
structure ExportRow where
  status : ExportStatus
  date_failed : Option Nat
  date_requested : Option Nat
  deriving DecidableEq, Repr

/-- Terminal states of the export state machine. -/
def ExportStatus.isTerminal : ExportStatus → Bool
  | .COMPLETED => true
  | .FAILED => true
  | _ => false

/-- A job event: the `type` discriminator plus every payload field read by
`DeferredWorker.consume`.  Absent optional dict keys are `none`. -/
structure Event where
  type : String
  user_profile_id : Nat
  stream_recipient_ids : List Nat
  stream_recipient_id : Nat
  min_id : Option Nat
  realm_export_id : Option Nat
  id : Nat
  time : Nat
  realm_id : Nat
  deriving DecidableEq, Repr

/-- An exception escaping the handler to the worker framework. -/
inductive PyErr where
  | otherError (msg : String)
  deriving DecidableEq, Repr

/-- Outcome of calling `clear_push_device_tokens` (external collaborator). -/
inductive ClearOutcome where
  | ok
  | bouncerRetryLater
  | raiseOther (msg : String)
  deriving DecidableEq, Repr

/-- Observable effects of one `consume` call, in program order. -/
inductive Effect where
  | log (msg : String)
  | logNum (msg : String) (n : Nat)
  | logTerminal (uid : Nat)
  | processedLog (ty : String) (ms : Nat)
  | markRead (uid : Nat) (recipientId : Nat)
  | updateReadFlags (batch : List Nat)
  | publish (queue : String) (ev : Event)
  | clearTokens (uid : Nat)
  | retrySubmit (ev : Event)
  | exportOp
  | saveRow (row : ExportRow)
  | createRow (row : ExportRow)
  | saveAuditLog
  | deleteAuditLog
  | notifyExport
  | sendDM (uid : Nat)
  | reuploadEmoji (realmId : Nat)
  | softReactivate (uid : Nat)
  | bouncerUpdate
  deriving DecidableEq, Repr

/-- Log effects (logger.info / error / warning / exception output). -/
def isLog : Effect → Bool
  | .log _ => true
  | .logNum _ _ => true
  | .logTerminal _ => true
  | .processedLog _ _ => true
  | _ => false

def isNotifyExport : Effect → Bool
  | .notifyExport => true
  | _ => false

def isSendDM : Effect → Bool
  | .sendDM _ => true
  | _ => false

def isPublish : Effect → Bool
  | .publish _ _ => true
  | _ => false

def isProcessedLog : Effect → Bool
  | .processedLog _ _ => true
  | _ => false

def isRetrySubmit : Effect → Bool
  | .retrySubmit _ => true
  | _ => false

def isLogTerminal : Effect → Bool
  | .logTerminal _ => true
  | _ => false

/-- The committed batch carried by an `updateReadFlags` effect, if any. -/
def batchOf : Effect → Option (List Nat)
  | .updateReadFlags b => some b
  | _ => none

/-- Environment: the external collaborators of `DeferredWorker.consume`.
`messageIds` is the message table for the relevant realm/recipient in id
order; `exceeded k` tells whether the wall-clock budget check after the
(k+1)-th full batch sees more than 30 elapsed seconds; `attempts` is the
retry counter the queueing layer maintains for the delivered event. -/
structure Env where
  messageIds : List Nat
  exceeded : Nat → Bool
  exportRow : ExportRow
  auditRowId : Option Nat
  exportFails : Bool
  clearResult : ClearOutcome
  attempts : Nat
  now : Nat
  wallStart : Nat
  tFail : Nat
  tDone : Nat
  wallEnd : Nat

/-- Result of one handler branch: normal completion (falls through to the
final completion log), an early `return`, or a propagating exception. -/
inductive BranchResult where
  | ok (effs : List Effect) (row : ExportRow)
  | earlyReturn (effs : List Effect) (row : ExportRow)
  | raised (effs : List Effect) (row : ExportRow) (err : PyErr)
  deriving DecidableEq, Repr

/-- Final state of a `consume` call: the effect trace, the resulting export
row state, and the exception that escaped the handler, if any. -/
structure Outcome where
  effects : List Effect
  row : ExportRow
  raised : Option PyErr
  deriving DecidableEq, Repr

/-- Strictly-greater-than-cursor selection predicate (the `id__gt=min_id`
filter of the batch query). -/
def gtF (m : Nat) : Nat → Bool := fun i => decide (m < i)

/-- Batch size of the mark-as-read-for-everyone loop (source line 73). -/
def batch_size : Nat := 50

/-- The `while True` loop of the `mark_stream_messages_as_read_for_everyone`
branch (source lines 77-104).  Each iteration selects up to `batch_size`
message ids strictly above the cursor in id order, commits the read-flag
update for that batch, and either finishes (short batch), stops with a
continuation cursor (time budget exceeded after a full batch), or advances
the cursor and repeats.  `fuel` bounds the recursion; `markAll` supplies
enough for the loop to always reach its own exit. -/
def markAllLoop (ids : List Nat) (ex : Nat → Bool) : Nat → Nat → Nat → List (List Nat) × Option Nat
  | 0, _, _ => ([], none)
  | fuel + 1, minId, k =>
    let messages := (ids.filter (gtF minId)).take batch_size
    if messages.length < batch_size then
      ([messages], none)
    else
      let newMin := messages.getLast?.getD 0
      if ex k then
        ([messages], some newMin)
      else
        let r := markAllLoop ids ex fuel newMin (k + 1)
        (messages :: r.1, r.2)

/-- Entry point of the batch loop: runs `markAllLoop` with sufficient fuel.
Returns the committed batches in order and the continuation cursor if the
time budget stopped the loop. -/
def markAll (ids : List Nat) (ex : Nat → Bool) (minId : Nat) : List (List Nat) × Option Nat :=
  markAllLoop ids ex (ids.length + 1) minId 0

/-- Maximum attempt count of the queueing layer (MAX_REQUEST_RETRIES in
zerver/lib/queue.py). -/
def MAX_REQUEST_RETRIES : Nat := 3

/-- The inline `failure_processor` of the `clear_push_device_tokens` branch
(source lines 119-123): logs a maximum-retries-exceeded warning for the
user_profile_id and does nothing else. -/
def failure_processor (e : Event) : List Effect :=
  [Effect.logTerminal e.user_profile_id]

/-- Modelled from the spec: `retry_event` lives in zerver/lib/queue.py, which
is not under src/.  Per the Retry Policy Engine contract it re-submits the
same job event back onto the queue for a later attempt, up to a maximum
attempt count maintained by the queueing layer, and when the maximum is
reached it invokes the terminal-failure handler supplied by the caller
instead of retrying further. -/
def retry_event (attempts : Nat) (e : Event) (fp : Event → List Effect) : List Effect :=
  if attempts + 1 > MAX_REQUEST_RETRIES then fp e else [Effect.retrySubmit e]

/-- Modelled from the spec: `export_realm_wrapper` lives in zerver/lib/export.py,
which is not under src/.  Per the Idempotent State Machine contract, on
success the operation itself records COMPLETED on the status record as part
of its own durable output; on any exception the exceptional path leaves the
status record FAILED with a failure timestamp before control reaches the
the catch block of the handler.  Returns the resulting row and whether the operation
succeeded (false means an exception reached the handler). -/
def export_realm_wrapper (env : Env) (row : ExportRow) : ExportRow × Bool :=
  if env.exportFails then
    ({ row with status := .FAILED, date_failed := some env.now }, false)
  else
    ({ row with status := .COMPLETED }, true)

/-- Row-resolution logic of the `realm_export` branch (source lines 132-150):
a `realm_export_id` key loads the row directly; otherwise the legacy
RealmAuditLog entry is consulted, loading the row recorded in its extra
data or creating a fresh REQUESTED row and saving the audit-log pointer. -/
def loadExportRow (env : Env) (e : Event) : ExportRow × List Effect :=
  match e.realm_export_id with
  | some _ => (env.exportRow, [])
  | none =>
    match env.auditRowId with
    | some _ => (env.exportRow, [])
    | none =>
      let row : ExportRow :=
        { status := .REQUESTED, date_failed := none, date_requested := some e.time }
      (row, [Effect.createRow row, Effect.saveAuditLog])

/-- Handler of `mark_stream_messages_as_read` events: per recipient id, call
the mark-as-read action and log the count. -/
def markReadEffects (uid : Nat) : List Nat → List Effect
  | [] => []
  | r :: rest =>
    Effect.markRead uid r :: Effect.log "Marked messages as read for user" :: markReadEffects uid rest

def markStreamMessagesAsRead (env : Env) (e : Event) : BranchResult :=
  .ok (Effect.log "Marking messages as read for user"
        :: markReadEffects e.user_profile_id e.stream_recipient_ids)
      env.exportRow

/-- Handler of `mark_stream_messages_as_read_for_everyone` events (source
lines 66-109): run the batch loop from the event cursor (0 when absent),
publish a continuation event carrying the stop cursor if the budget was
exceeded, then log the total. -/
def markAllForEveryone (env : Env) (e : Event) : BranchResult :=
  let min_id := e.min_id.getD 0
  let r := markAll env.messageIds env.exceeded min_id
  .ok ((Effect.log "Marking messages as read for all users"
        :: r.1.map Effect.updateReadFlags)
       ++ (match r.2 with
           | some m => [Effect.publish "deferred_work" { e with min_id := some m }]
           | none => [])
       ++ [Effect.logNum "Marked messages as read for all users" ((r.1.map List.length).sum)])
      env.exportRow

/-- Handler of `clear_push_device_tokens` events (source lines 110-125): a
transient bouncer failure is caught and handed to `retry_event` with the
inline `failure_processor`; any other exception propagates. -/
def clearPushDeviceTokens (env : Env) (e : Event) : BranchResult :=
  match env.clearResult with
  | .ok =>
    .ok [Effect.log "Clearing push device tokens", Effect.clearTokens e.user_profile_id]
        env.exportRow
  | .bouncerRetryLater =>
    .ok ([Effect.log "Clearing push device tokens", Effect.clearTokens e.user_profile_id]
          ++ retry_event env.attempts e failure_processor)
        env.exportRow
  | .raiseOther s =>
    .raised [Effect.log "Clearing push device tokens", Effect.clearTokens e.user_profile_id]
        env.exportRow (.otherError s)

/-- Handler of `realm_export` events (source lines 126-211): load the status
row; a row not in REQUESTED state short-circuits to FAILED with one observer
notification and an early return; otherwise the export runs, an exception is
caught (elapsed-time log, observer notification, early return), and success
deletes the legacy audit-log entry, DMs the initiating user, notifies
observers and logs the elapsed time. -/
def realmExport (env : Env) (e : Event) : BranchResult :=
  let load := loadExportRow env e
  let export_row := load.1
  if export_row.status ≠ ExportStatus.REQUESTED then
    let row2 : ExportRow := { export_row with status := .FAILED, date_failed := some env.now }
    .earlyReturn (load.2
        ++ [Effect.log "Marking export as failed due to retry",
            Effect.saveRow row2, Effect.notifyExport])
      row2
  else
    let pre := load.2 ++ [Effect.log "Starting realm export"]
    let w := export_realm_wrapper env export_row
    if w.2 then
      .ok (pre ++ [Effect.exportOp, Effect.saveRow w.1]
            ++ (if e.realm_export_id.isNone then [Effect.deleteAuditLog] else [])
            ++ [Effect.sendDM e.user_profile_id, Effect.notifyExport,
                Effect.logNum "Completed data export in" (env.tDone - env.wallStart)])
          w.1
    else
      .earlyReturn (pre ++ [Effect.exportOp, Effect.saveRow w.1,
            Effect.logNum "Data export failed after" (env.tFail - env.wallStart),
            Effect.notifyExport])
          w.1

def reuploadRealmEmoji (env : Env) (e : Event) : BranchResult :=
  .ok [Effect.log "Processing reupload realm emoji event for realm",
       Effect.reuploadEmoji e.realm_id] env.exportRow

def softReactivateHandler (env : Env) (e : Event) : BranchResult :=
  .ok [Effect.log "Starting soft reactivation for user_profile_id",
       Effect.softReactivate e.user_profile_id] env.exportRow

def pushBouncerUpdateForRealm (env : Env) (_e : Event) : BranchResult :=
  .ok [Effect.log "Updating push bouncer with metadata on behalf of realm",
       Effect.bouncerUpdate] env.exportRow

/-- The if/elif dispatch chain of `DeferredWorker.consume` (source lines
50-230), exactly in source order; an unmatched type falls through all
branches with no effect. -/
def handlerBranch (env : Env) (e : Event) : BranchResult :=
  if e.type = "mark_stream_messages_as_read" then markStreamMessagesAsRead env e
  else if e.type = "mark_stream_messages_as_read_for_everyone" then markAllForEveryone env e
  else if e.type = "clear_push_device_tokens" then clearPushDeviceTokens env e
  else if e.type = "realm_export" then realmExport env e
  else if e.type = "reupload_realm_emoji" then reuploadRealmEmoji env e
  else if e.type = "soft_reactivate" then softReactivateHandler env e
  else if e.type = "push_bouncer_update_for_realm" then pushBouncerUpdateForRealm env e
  else .ok [] env.exportRow

/-- End of `consume` (source lines 232-237): a normal branch exit falls
through to the structured completion log with type and duration; an early
return or a propagating exception skips it. -/
def finishOutcome (env : Env) (e : Event) : BranchResult → Outcome
  | .ok effs row =>
    { effects := effs ++ [Effect.processedLog e.type ((env.wallEnd - env.wallStart) * 1000)],
      row := row, raised := none }
  | .earlyReturn effs row => { effects := effs, row := row, raised := none }
  | .raised effs row err => { effects := effs, row := row, raised := some err }

/-- The full `DeferredWorker.consume` body. -/
def consume (env : Env) (e : Event) : Outcome :=
  finishOutcome env e (handlerBranch env e)

/-- The event types `consume` knows a handler for. -/
def knownTypes : List String :=
  ["mark_stream_messages_as_read", "mark_stream_messages_as_read_for_everyone",
   "clear_push_device_tokens", "realm_export", "reupload_realm_emoji",
   "soft_reactivate", "push_bouncer_update_for_realm"]

/-- Dispatch table written after the words of the spec (section 4.4 and the
design notes): a single table from type strings to handlers, consulted once
per event, with only logging for unknown types. -/
def handlerTable : List (String × (Env → Event → BranchResult)) :=
  [("mark_stream_messages_as_read", markStreamMessagesAsRead),
   ("mark_stream_messages_as_read_for_everyone", markAllForEveryone),
   ("clear_push_device_tokens", clearPushDeviceTokens),
   ("realm_export", realmExport),
   ("reupload_realm_emoji", reuploadRealmEmoji),
   ("soft_reactivate", softReactivateHandler),
   ("push_bouncer_update_for_realm", pushBouncerUpdateForRealm)]

def dispatchTable (env : Env) (e : Event) : BranchResult :=
  match handlerTable.find? (fun p => p.1 == e.type) with
  | some p => p.2 env e
  | none => .ok [] env.exportRow

/-- Redelivery driver for the batch engine: repeatedly run the loop, feeding
each continuation cursor to a fresh invocation (the queue redelivers the
continuation event), until an invocation ends without a continuation.
Returns all committed batches in order and the list of continuation cursors
emitted along the way. -/
def runSequenceLoop (ids : List Nat) (oracles : Nat → Nat → Bool) :
    Nat → Nat → Nat → List (List Nat) × List Nat
  | 0, _, _ => ([], [])
  | fuel + 1, inv, minId =>
    match markAll ids (oracles inv) minId with
    | (batches, none) => (batches, [])
    | (batches, some m) =>
      let r := runSequenceLoop ids oracles fuel (inv + 1) m
      (batches ++ r.1, m :: r.2)

def runSequence (ids : List Nat) (oracles : Nat → Nat → Bool) (minId : Nat) :
    List (List Nat) × List Nat :=
  runSequenceLoop ids oracles (ids.length + 1) 0 minId

/-- Retry driver: deliver the same `clear_push_device_tokens` event over and
over with the bouncer failing transiently every time, the queueing layer
incrementing its attempt counter on each redelivery, until an attempt emits
no re-submission. Collects the concatenated effect traces. -/
def retrySequence (base : Env) (e : Event) : Nat → Nat → List Effect
  | 0, _ => []
  | fuel + 1, a =>
    let o := consume { base with clearResult := .bouncerRetryLater, attempts := a } e
    if o.effects.countP isRetrySubmit = 0 then o.effects
    else o.effects ++ retrySequence base e fuel (a + 1)

/-- Whether the event takes one of the early-return paths of the
`realm_export` branch (redelivery short-circuit or export failure). -/
def returnsEarly (env : Env) (e : Event) : Bool :=
  e.type == "realm_export"
    && (decide ((loadExportRow env e).1.status ≠ ExportStatus.REQUESTED) || env.exportFails)

/-- Whether the event makes the handler propagate an exception (a
non-transient failure of `clear_push_device_tokens`). -/
def raisesOut (env : Env) (e : Event) : Bool :=
  e.type == "clear_push_device_tokens"
    && (match env.clearResult with
        | .raiseOther _ => true
        | _ => false)

/-! Concrete inputs used by witnesses and counterexamples. -/

def baseEvent : Event :=
  { type := "", user_profile_id := 7, stream_recipient_ids := [], stream_recipient_id := 11,
    min_id := none, realm_export_id := none, id := 3, time := 4, realm_id := 1 }

def reqRow : ExportRow := { status := .REQUESTED, date_failed := none, date_requested := none }

def doneRow : ExportRow := { status := .COMPLETED, date_failed := none, date_requested := none }

def baseEnv : Env :=
  { messageIds := [], exceeded := fun _ => false, exportRow := reqRow, auditRowId := none,
    exportFails := false, clearResult := .ok, attempts := 0, now := 5, wallStart := 0,
    tFail := 9, tDone := 8, wallEnd := 10 }

def cenv5 : Env :=
  { baseEnv with messageIds := List.range' 1 120, exceeded := fun k => decide (1 ≤ k) }

def cev5 : Event := { baseEvent with type := "mark_stream_messages_as_read_for_everyone" }

def cev5c : Event := { cev5 with min_id := some 100 }

def cenv1 : Env := { baseEnv with exportRow := doneRow }

def cev1 : Event := { baseEvent with type := "realm_export", realm_export_id := some 9 }

def cenv2 : Env := { baseEnv with exportFails := true }

def cenv6 : Env :=
  { baseEnv with messageIds := List.range' 1 60, exceeded := fun _ => true }

def cev6 : Event := { baseEvent with type := "mark_stream_messages_as_read_for_everyone" }

def cev6c : Event := { cev6 with min_id := some 50 }

def cenv8 : Env := { baseEnv with clearResult := .bouncerRetryLater }

def cev8 : Event := { baseEvent with type := "clear_push_device_tokens" }

def cev4 : Event := { baseEvent with type := "soft_reactivate" }

def cev9u : Event := { baseEvent with type := "unknown_event_type" }

/-! Helper lemmas about the batch loop. -/

theorem mem_of_getLast?_eq {l : List Nat} {a : Nat} (h : l.getLast? = some a) : a ∈ l := by
  have hne : l ≠ [] := by
    intro hnil
    rw [hnil] at h
    simp at h
  rw [List.getLast?_eq_getLast l hne] at h
  have := List.getLast_mem hne
  rwa [← Option.some_inj.mp h]

theorem le_getLast?_of_sorted {l : List Nat} (hs : List.Pairwise (· < ·) l)
    {x m : Nat} (hx : x ∈ l) (hm : l.getLast? = some m) : x ≤ m := by
  have hne : l ≠ [] := by
    intro hnil
    rw [hnil] at hm
    simp at hm
  rw [List.getLast?_eq_getLast l hne] at hm
  have hml : l.getLast hne = m := Option.some_inj.mp hm
  have hsplit := List.dropLast_append_getLast hne
  rw [hml] at hsplit
  have hp : List.Pairwise (· < ·) (l.dropLast ++ [m]) := by rw [hsplit]; exact hs
  rw [List.pairwise_append] at hp
  rw [← hsplit] at hx
  rcases List.mem_append.mp hx with hx1 | hx2
  · exact le_of_lt (hp.2.2 x hx1 m (by simp))
  · simp at hx2
    exact le_of_eq hx2

theorem filter_gtF_of_le {a b : Nat} (h : a ≤ b) (ids : List Nat) :
    ids.filter (gtF b) = (ids.filter (gtF a)).filter (gtF b) := by
  rw [List.filter_filter]
  apply List.filter_congr
  intro i _
  by_cases hbi : b < i
  · simp [gtF, hbi, lt_of_le_of_lt h hbi]
  · simp [gtF, hbi]

theorem full_batch_step (ids : List Nat) (hs : List.Pairwise (· < ·) ids) {minId : Nat}
    (hlen : ¬ ((ids.filter (gtF minId)).take batch_size).length < batch_size) :
    ∃ m, ((ids.filter (gtF minId)).take batch_size).getLast? = some m ∧
      minId < m ∧ ids.filter (gtF m) = (ids.filter (gtF minId)).drop batch_size := by
  set l := ids.filter (gtF minId) with hl
  have hsl : List.Pairwise (· < ·) l := List.Pairwise.filter _ hs
  have hlenl : batch_size ≤ l.length := by
    have h1 : (l.take batch_size).length ≤ l.length := (List.take_sublist _ _).length_le
    omega
  have hne : l.take batch_size ≠ [] := by
    intro hnil
    rw [hnil] at hlen
    simp [batch_size] at hlen
  obtain ⟨m, hm⟩ := Option.isSome_iff_exists.mp (List.getLast?_isSome.mpr hne)
  refine ⟨m, hm, ?_, ?_⟩
  · have hmem : m ∈ l := List.mem_of_mem_take (mem_of_getLast?_eq hm)
    have := (List.mem_filter.mp (hl ▸ hmem)).2
    simpa [gtF] using this
  · have hmem : m ∈ l := List.mem_of_mem_take (mem_of_getLast?_eq hm)
    have hminm : minId ≤ m := by
      have := (List.mem_filter.mp (hl ▸ hmem)).2
      have := of_decide_eq_true this
      omega
    rw [filter_gtF_of_le hminm ids, ← hl]
    have hsplit := List.take_append_drop batch_size l
    have hp : List.Pairwise (· < ·) (l.take batch_size ++ l.drop batch_size) := by
      rw [hsplit]; exact hsl
    rw [List.pairwise_append] at hp
    have hst : List.Pairwise (· < ·) (l.take batch_size) := hp.1
    have hnil1 : (l.take batch_size).filter (gtF m) = [] := by
      rw [List.filter_eq_nil_iff]
      intro x hx
      have hxm : x ≤ m := le_getLast?_of_sorted hst hx hm
      simp [gtF]
      omega
    have hself : (l.drop batch_size).filter (gtF m) = l.drop batch_size := by
      rw [List.filter_eq_self]
      intro y hy
      have : m < y := hp.2.2 m (mem_of_getLast?_eq hm) y hy
      simpa [gtF] using this
    conv_lhs => rw [← hsplit]
    rw [List.filter_append, hnil1, hself, List.nil_append]

theorem take_batch_len (l : List Nat) : (l.take batch_size).length = min batch_size l.length := by
  simp [List.length_take]

theorem markAllLoop_spec (ids : List Nat) (hs : List.Pairwise (· < ·) ids) (ex : Nat → Bool) :
    ∀ fuel minId k, (ids.filter (gtF minId)).length < fuel →
      ((markAllLoop ids ex fuel minId k).1.flatten
          ++ ((markAllLoop ids ex fuel minId k).2.elim [] (fun m => ids.filter (gtF m)))
        = ids.filter (gtF minId))
      ∧ (∀ m, (markAllLoop ids ex fuel minId k).2 = some m →
          minId < m ∧ (ids.filter (gtF m)).length < (ids.filter (gtF minId)).length)
      ∧ (∀ b ∈ (markAllLoop ids ex fuel minId k).1, List.Pairwise (· < ·) b) := by
  intro fuel
  induction fuel with
  | zero => intro minId k h; exact absurd h (Nat.not_lt_zero _)
  | succ fuel ih =>
    intro minId k hfuel
    have hsl : List.Pairwise (· < ·) (ids.filter (gtF minId)) := List.Pairwise.filter _ hs
    have hpw : List.Pairwise (· < ·) ((ids.filter (gtF minId)).take batch_size) :=
      List.Pairwise.sublist (List.take_sublist _ _) hsl
    by_cases h1 : ((ids.filter (gtF minId)).take batch_size).length < batch_size
    · have hres : markAllLoop ids ex (fuel + 1) minId k
          = ([(ids.filter (gtF minId)).take batch_size], none) := by
        simp only [markAllLoop]
        rw [if_pos h1]
      rw [hres]
      have hlen : (ids.filter (gtF minId)).length < batch_size := by
        have h2 := take_batch_len (ids.filter (gtF minId))
        omega
      have htake : (ids.filter (gtF minId)).take batch_size = ids.filter (gtF minId) :=
        List.take_of_length_le (le_of_lt hlen)
      refine ⟨?_, ?_, ?_⟩
      · simp [htake]
      · intro m hm; simp at hm
      · intro b hb
        simp at hb
        rw [hb, htake]
        exact hsl
    · obtain ⟨m, hm, hminm, hdrop⟩ := full_batch_step ids hs h1
      have hlenl : batch_size ≤ (ids.filter (gtF minId)).length := by
        have h2 := take_batch_len (ids.filter (gtF minId))
        omega
      have hdroplen : (ids.filter (gtF m)).length
          = (ids.filter (gtF minId)).length - batch_size := by
        rw [hdrop, List.length_drop]
      by_cases h2 : ex k = true
      · have hres : markAllLoop ids ex (fuel + 1) minId k
            = ([(ids.filter (gtF minId)).take batch_size], some m) := by
          simp only [markAllLoop]
          rw [if_neg h1, hm]
          simp [h2]
        rw [hres]
        refine ⟨?_, ?_, ?_⟩
        · simp only [List.flatten_cons, List.flatten_nil, List.append_nil, Option.elim]
          rw [hdrop]
          exact List.take_append_drop _ _
        · intro m2 hm2
          simp at hm2
          rw [← hm2]
          constructor
          · exact hminm
          · rw [hdroplen]; simp [batch_size] at hlenl ⊢; omega
        · intro b hb
          simp at hb
          rw [hb]
          exact hpw
      · have hres : markAllLoop ids ex (fuel + 1) minId k
            = ((ids.filter (gtF minId)).take batch_size :: (markAllLoop ids ex fuel m (k + 1)).1,
               (markAllLoop ids ex fuel m (k + 1)).2) := by
          simp only [markAllLoop]
          rw [if_neg h1, hm]
          simp [h2]
        have hfuel2 : (ids.filter (gtF m)).length < fuel := by
          rw [hdroplen]
          simp [batch_size] at hlenl hfuel ⊢
          omega
        obtain ⟨ih1, ih2, ih3⟩ := ih m (k + 1) hfuel2
        rw [hres]
        refine ⟨?_, ?_, ?_⟩
        · simp only [List.flatten_cons, List.append_assoc]
          rw [ih1, hdrop]
          exact List.take_append_drop _ _
        · intro m2 hm2
          obtain ⟨hlt, hlen2⟩ := ih2 m2 hm2
          constructor
          · exact lt_trans hminm hlt
          · calc (ids.filter (gtF m2)).length < (ids.filter (gtF m)).length := hlen2
              _ ≤ (ids.filter (gtF minId)).length := by rw [hdroplen]; omega
        · intro b hb
          rcases List.mem_cons.mp hb with hb1 | hb2
          · rw [hb1]; exact hpw
          · exact ih3 b hb2

theorem markAllLoop_batch_gt (ids : List Nat) (ex : Nat → Bool) :
    ∀ fuel minId k b, b ∈ (markAllLoop ids ex fuel minId k).1 → ∀ x ∈ b, minId < x := by
  intro fuel
  induction fuel with
  | zero => intro minId k b hb; simp [markAllLoop] at hb
  | succ fuel ih =>
    intro minId k b hb x hx
    have hmem_of : ∀ y, y ∈ (ids.filter (gtF minId)).take batch_size → minId < y := by
      intro y hy
      have := (List.mem_filter.mp (List.mem_of_mem_take hy)).2
      exact of_decide_eq_true this
    by_cases h1 : ((ids.filter (gtF minId)).take batch_size).length < batch_size
    · simp only [markAllLoop, if_pos h1] at hb
      simp at hb
      exact hmem_of x (hb ▸ hx)
    · have hne : (ids.filter (gtF minId)).take batch_size ≠ [] := by
        intro hnil
        rw [hnil] at h1
        simp [batch_size] at h1
      obtain ⟨g, hg⟩ := Option.isSome_iff_exists.mp (List.getLast?_isSome.mpr hne)
      have hgmem : minId < g := hmem_of g (mem_of_getLast?_eq hg)
      by_cases h2 : ex k = true
      · simp only [markAllLoop, if_neg h1, h2, if_pos] at hb
        simp at hb
        exact hmem_of x (hb ▸ hx)
      · simp only [markAllLoop, if_neg h1, h2] at hb
        simp only [Bool.false_eq_true, if_false] at hb
        rw [hg] at hb
        simp only [Option.getD_some] at hb
        rcases List.mem_cons.mp hb with hb1 | hb2
        · exact hmem_of x (hb1 ▸ hx)
        · exact lt_trans hgmem (ih g (k + 1) b hb2 x hx)

theorem markAll_fuel_ok (ids : List Nat) (minId : Nat) :
    (ids.filter (gtF minId)).length < ids.length + 1 :=
  Nat.lt_succ_of_le (List.length_filter_le _ _)

theorem markAll_spec (ids : List Nat) (hs : List.Pairwise (· < ·) ids) (ex : Nat → Bool)
    (minId : Nat) :
    ((markAll ids ex minId).1.flatten
        ++ ((markAll ids ex minId).2.elim [] (fun m => ids.filter (gtF m)))
      = ids.filter (gtF minId))
    ∧ (∀ m, (markAll ids ex minId).2 = some m →
        minId < m ∧ (ids.filter (gtF m)).length < (ids.filter (gtF minId)).length)
    ∧ (∀ b ∈ (markAll ids ex minId).1, List.Pairwise (· < ·) b) :=
  markAllLoop_spec ids hs ex (ids.length + 1) minId 0 (markAll_fuel_ok ids minId)

theorem markAll_batch_gt (ids : List Nat) (ex : Nat → Bool) (minId : Nat)
    (b : List Nat) (hb : b ∈ (markAll ids ex minId).1) : ∀ x ∈ b, minId < x :=
  markAllLoop_batch_gt ids ex (ids.length + 1) minId 0 b hb

theorem markAll_head (ids : List Nat) (ex : Nat → Bool) (minId : Nat) :
    ((markAll ids ex minId).1).head? = some ((ids.filter (gtF minId)).take batch_size) := by
  simp only [markAll, markAllLoop]
  by_cases h1 : ((ids.filter (gtF minId)).take batch_size).length < batch_size
  · rw [if_pos h1]
    rfl
  · rw [if_neg h1]
    by_cases h2 : ex 0 = true
    · simp [h2]
    · simp [h2]

theorem runSequenceLoop_spec (ids : List Nat) (hs : List.Pairwise (· < ·) ids)
    (oracles : Nat → Nat → Bool) :
    ∀ fuel inv minId, (ids.filter (gtF minId)).length < fuel →
      ((runSequenceLoop ids oracles fuel inv minId).1.flatten = ids.filter (gtF minId))
      ∧ List.Chain (· < ·) minId (runSequenceLoop ids oracles fuel inv minId).2
      ∧ (∀ b ∈ (runSequenceLoop ids oracles fuel inv minId).1,
          List.Pairwise (· < ·) b ∧ ∀ x ∈ b, minId < x) := by
  intro fuel
  induction fuel with
  | zero => intro inv minId h; exact absurd h (Nat.not_lt_zero _)
  | succ fuel ih =>
    intro inv minId hfuel
    obtain ⟨s1, s2, s3⟩ := markAll_spec ids hs (oracles inv) minId
    rcases hma : markAll ids (oracles inv) minId with ⟨batches, cont⟩
    rw [hma] at s1 s2 s3
    cases cont with
    | none =>
      have hres : runSequenceLoop ids oracles (fuel + 1) inv minId = (batches, []) := by
        simp only [runSequenceLoop, hma]
      rw [hres]
      refine ⟨?_, List.Chain.nil, ?_⟩
      · simpa using s1
      · intro b hb
        exact ⟨s3 b hb, markAll_batch_gt ids (oracles inv) minId b (by rw [hma]; exact hb)⟩
    | some m =>
      obtain ⟨hlt, hdec⟩ := s2 m rfl
      have hfuel2 : (ids.filter (gtF m)).length < fuel := by omega
      obtain ⟨ih1, ih2, ih3⟩ := ih (inv + 1) m hfuel2
      have hres : runSequenceLoop ids oracles (fuel + 1) inv minId
          = (batches ++ (runSequenceLoop ids oracles fuel (inv + 1) m).1,
             m :: (runSequenceLoop ids oracles fuel (inv + 1) m).2) := by
        simp only [runSequenceLoop, hma]
      rw [hres]
      refine ⟨?_, List.Chain.cons hlt ih2, ?_⟩
      · rw [List.flatten_append, ih1]
        simpa using s1
      · intro b hb
        rcases List.mem_append.mp hb with hb1 | hb2
        · exact ⟨s3 b hb1, markAll_batch_gt ids (oracles inv) minId b (by rw [hma]; exact hb1)⟩
        · obtain ⟨hp, hgt⟩ := ih3 b hb2
          exact ⟨hp, fun x hx => lt_trans hlt (hgt x hx)⟩

theorem runSequence_spec (ids : List Nat) (hs : List.Pairwise (· < ·) ids)
    (oracles : Nat → Nat → Bool) (minId : Nat) :
    ((runSequence ids oracles minId).1.flatten = ids.filter (gtF minId))
    ∧ List.Chain (· < ·) minId (runSequence ids oracles minId).2
    ∧ (∀ b ∈ (runSequence ids oracles minId).1,
        List.Pairwise (· < ·) b ∧ ∀ x ∈ b, minId < x) :=
  runSequenceLoop_spec ids hs oracles (ids.length + 1) 0 minId (markAll_fuel_ok ids minId)

/-! Dispatch lemmas: which branch the if/elif chain takes for each type. -/

theorem handlerBranch_markRead (env : Env) (e : Event)
    (ht : e.type = "mark_stream_messages_as_read") :
    handlerBranch env e = markStreamMessagesAsRead env e := by
  unfold handlerBranch
  rw [ht, if_pos rfl]

theorem handlerBranch_forEveryone (env : Env) (e : Event)
    (ht : e.type = "mark_stream_messages_as_read_for_everyone") :
    handlerBranch env e = markAllForEveryone env e := by
  unfold handlerBranch
  rw [ht, if_neg (by decide), if_pos rfl]

theorem handlerBranch_clear (env : Env) (e : Event)
    (ht : e.type = "clear_push_device_tokens") :
    handlerBranch env e = clearPushDeviceTokens env e := by
  unfold handlerBranch
  rw [ht, if_neg (by decide), if_neg (by decide), if_pos rfl]

theorem handlerBranch_realmExport (env : Env) (e : Event)
    (ht : e.type = "realm_export") :
    handlerBranch env e = realmExport env e := by
  unfold handlerBranch
  rw [ht, if_neg (by decide), if_neg (by decide), if_neg (by decide), if_pos rfl]

theorem handlerBranch_reupload (env : Env) (e : Event)
    (ht : e.type = "reupload_realm_emoji") :
    handlerBranch env e = reuploadRealmEmoji env e := by
  unfold handlerBranch
  rw [ht, if_neg (by decide), if_neg (by decide), if_neg (by decide), if_neg (by decide),
    if_pos rfl]

theorem handlerBranch_softReactivate (env : Env) (e : Event)
    (ht : e.type = "soft_reactivate") :
    handlerBranch env e = softReactivateHandler env e := by
  unfold handlerBranch
  rw [ht, if_neg (by decide), if_neg (by decide), if_neg (by decide), if_neg (by decide),
    if_neg (by decide), if_pos rfl]

theorem handlerBranch_bouncer (env : Env) (e : Event)
    (ht : e.type = "push_bouncer_update_for_realm") :
    handlerBranch env e = pushBouncerUpdateForRealm env e := by
  unfold handlerBranch
  rw [ht, if_neg (by decide), if_neg (by decide), if_neg (by decide), if_neg (by decide),
    if_neg (by decide), if_neg (by decide), if_pos rfl]

theorem handlerBranch_unknown (env : Env) (e : Event) (ht : e.type ∉ knownTypes) :
    handlerBranch env e = .ok [] env.exportRow := by
  simp only [knownTypes, List.mem_cons, List.not_mem_nil, or_false, not_or] at ht
  obtain ⟨h1, h2, h3, h4, h5, h6, h7⟩ := ht
  unfold handlerBranch
  rw [if_neg h1, if_neg h2, if_neg h3, if_neg h4, if_neg h5, if_neg h6, if_neg h7]

theorem consume_def (env : Env) (e : Event) :
    consume env e = finishOutcome env e (handlerBranch env e) := rfl

/-! Trace lemmas for the batch branch. -/

theorem filterMap_batchOf_update (bs : List (List Nat)) :
    List.filterMap (batchOf ∘ Effect.updateReadFlags) bs = bs := by
  induction bs with
  | nil => rfl
  | cons b bs ih => simp [batchOf, ih]

theorem batches_in_trace (env : Env) (e : Event)
    (ht : e.type = "mark_stream_messages_as_read_for_everyone") :
    (consume env e).effects.filterMap batchOf
      = (markAll env.messageIds env.exceeded (e.min_id.getD 0)).1 := by
  rw [consume_def, handlerBranch_forEveryone env e ht]
  simp only [markAllForEveryone, finishOutcome]
  cases hma : (markAll env.messageIds env.exceeded (e.min_id.getD 0)).2 with
  | none => simp [hma, batchOf, filterMap_batchOf_update, List.filterMap_append]
  | some m => simp [hma, batchOf, filterMap_batchOf_update, List.filterMap_append]

theorem countP_map_update (p : Effect → Bool) (h : ∀ b, p (Effect.updateReadFlags b) = false)
    (bs : List (List Nat)) : (bs.map Effect.updateReadFlags).countP p = 0 := by
  induction bs with
  | nil => rfl
  | cons b t ih => simp [List.countP_cons, h, ih]

theorem publish_count_forEveryone (env : Env) (e : Event)
    (ht : e.type = "mark_stream_messages_as_read_for_everyone") :
    (consume env e).effects.countP isPublish
      = ((markAll env.messageIds env.exceeded (e.min_id.getD 0)).2.elim 0 (fun _ => 1)) := by
  rw [consume_def, handlerBranch_forEveryone env e ht]
  simp only [markAllForEveryone, finishOutcome]
  have hmap := countP_map_update isPublish (fun _ => rfl)
  cases hma : (markAll env.messageIds env.exceeded (e.min_id.getD 0)).2 with
  | none => simp [hma, List.countP_append, List.countP_cons, isPublish, hmap]
  | some m => simp [hma, List.countP_append, List.countP_cons, isPublish, hmap]

theorem publish_in_trace (env : Env) (e : Event) (q : String) (ev : Event)
    (ht : e.type = "mark_stream_messages_as_read_for_everyone")
    (hp : Effect.publish q ev ∈ (consume env e).effects) :
    ∃ m, (markAll env.messageIds env.exceeded (e.min_id.getD 0)).2 = some m
      ∧ q = "deferred_work" ∧ ev = { e with min_id := some m } := by
  rw [consume_def, handlerBranch_forEveryone env e ht] at hp
  simp only [markAllForEveryone, finishOutcome] at hp
  cases hma : (markAll env.messageIds env.exceeded (e.min_id.getD 0)).2 with
  | none =>
    exfalso
    rw [hma] at hp
    simp [List.mem_append, List.mem_cons, List.mem_map] at hp
  | some m =>
    rw [hma] at hp
    refine ⟨m, rfl, ?_⟩
    simp [List.mem_append, List.mem_cons, List.mem_map] at hp
    exact ⟨hp.1, hp.2⟩

theorem countP_markReadEffects (p : Effect → Bool) (h1 : ∀ u r, p (Effect.markRead u r) = false)
    (h2 : p (Effect.log "Marked messages as read for user") = false)
    (uid : Nat) (rs : List Nat) : (markReadEffects uid rs).countP p = 0 := by
  induction rs with
  | nil => rfl
  | cons r rs ih => simp [markReadEffects, List.countP_cons, h1, h2, ih]

/-! Path lemmas for the realm_export branch. -/

theorem loadExportRow_lookup (env : Env) (e : Event)
    (h : e.realm_export_id.isSome = true ∨ env.auditRowId.isSome = true) :
    loadExportRow env e = (env.exportRow, []) := by
  unfold loadExportRow
  cases hre : e.realm_export_id with
  | some v => rfl
  | none =>
    cases har : env.auditRowId with
    | some v => rfl
    | none =>
      rw [hre, har] at h
      simp at h

theorem loadExportRow_fresh (env : Env) (e : Event)
    (h1 : e.realm_export_id = none) (h2 : env.auditRowId = none) :
    loadExportRow env e
      = ({ status := .REQUESTED, date_failed := none, date_requested := some e.time },
         [Effect.createRow
            { status := .REQUESTED, date_failed := none, date_requested := some e.time },
          Effect.saveAuditLog]) := by
  unfold loadExportRow
  rw [h1, h2]

theorem realmExport_shortCircuit (env : Env) (e : Event)
    (hrow : (loadExportRow env e).1.status ≠ ExportStatus.REQUESTED) :
    realmExport env e
      = .earlyReturn ((loadExportRow env e).2
          ++ [Effect.log "Marking export as failed due to retry",
              Effect.saveRow
                { (loadExportRow env e).1 with status := .FAILED, date_failed := some env.now },
              Effect.notifyExport])
        { (loadExportRow env e).1 with status := .FAILED, date_failed := some env.now } := by
  simp only [realmExport]
  rw [if_pos hrow]

theorem realmExport_failPath (env : Env) (e : Event)
    (hrow : (loadExportRow env e).1.status = ExportStatus.REQUESTED)
    (hf : env.exportFails = true) :
    realmExport env e
      = .earlyReturn (((loadExportRow env e).2 ++ [Effect.log "Starting realm export"])
          ++ [Effect.exportOp,
              Effect.saveRow
                { (loadExportRow env e).1 with status := .FAILED, date_failed := some env.now },
              Effect.logNum "Data export failed after" (env.tFail - env.wallStart),
              Effect.notifyExport])
        { (loadExportRow env e).1 with status := .FAILED, date_failed := some env.now } := by
  simp only [realmExport, export_realm_wrapper]
  rw [if_neg (by simp [hrow]), if_pos hf]
  simp

theorem realmExport_successPath (env : Env) (e : Event)
    (hrow : (loadExportRow env e).1.status = ExportStatus.REQUESTED)
    (hf : env.exportFails = false) :
    realmExport env e
      = .ok (((loadExportRow env e).2 ++ [Effect.log "Starting realm export"])
          ++ [Effect.exportOp,
              Effect.saveRow { (loadExportRow env e).1 with status := .COMPLETED }]
          ++ (if e.realm_export_id.isNone then [Effect.deleteAuditLog] else [])
          ++ [Effect.sendDM e.user_profile_id, Effect.notifyExport,
              Effect.logNum "Completed data export in" (env.tDone - env.wallStart)])
        { (loadExportRow env e).1 with status := .COMPLETED } := by
  simp only [realmExport, export_realm_wrapper]
  rw [if_neg (by simp [hrow]), if_pos (by simp [hf])]
  simp [hf]

theorem countP_loadEffects (env : Env) (e : Event) (p : Effect → Bool)
    (h1 : ∀ r, p (Effect.createRow r) = false) (h2 : p Effect.saveAuditLog = false) :
    (loadExportRow env e).2.countP p = 0 := by
  unfold loadExportRow
  cases e.realm_export_id <;> cases env.auditRowId <;> simp [List.countP_cons, h1, h2]

theorem no_publish_other (env : Env) (e : Event)
    (hne : e.type ≠ "mark_stream_messages_as_read_for_everyone") :
    (consume env e).effects.countP isPublish = 0 := by
  rw [consume_def]
  by_cases h1 : e.type = "mark_stream_messages_as_read"
  · rw [handlerBranch_markRead env e h1]
    simp [markStreamMessagesAsRead, finishOutcome, List.countP_append, List.countP_cons, isPublish,
      countP_markReadEffects isPublish (fun _ _ => rfl) rfl]
  by_cases h3 : e.type = "clear_push_device_tokens"
  · rw [handlerBranch_clear env e h3]
    cases hc : env.clearResult with
    | ok =>
      simp [clearPushDeviceTokens, hc, finishOutcome, List.countP_append, List.countP_cons,
        isPublish]
    | bouncerRetryLater =>
      by_cases hr : MAX_REQUEST_RETRIES < env.attempts + 1 <;>
        simp [clearPushDeviceTokens, hc, retry_event, failure_processor, hr, finishOutcome,
          List.countP_append, List.countP_cons, isPublish]
    | raiseOther s =>
      simp [clearPushDeviceTokens, hc, finishOutcome, List.countP_append, List.countP_cons,
        isPublish]
  by_cases h4 : e.type = "realm_export"
  · rw [handlerBranch_realmExport env e h4]
    have hload := countP_loadEffects env e isPublish (fun _ => rfl) rfl
    by_cases hrow : (loadExportRow env e).1.status = ExportStatus.REQUESTED
    · by_cases hf : env.exportFails = true
      · rw [realmExport_failPath env e hrow hf]
        simp [finishOutcome, List.countP_append, List.countP_cons, isPublish, hload]
      · rw [realmExport_successPath env e hrow (by simpa using hf)]
        by_cases hd : e.realm_export_id.isNone <;>
          simp [finishOutcome, List.countP_append, List.countP_cons, isPublish, hload, hd]
    · rw [realmExport_shortCircuit env e hrow]
      simp [finishOutcome, List.countP_append, List.countP_cons, isPublish, hload]
  by_cases h5 : e.type = "reupload_realm_emoji"
  · rw [handlerBranch_reupload env e h5]
    simp [reuploadRealmEmoji, finishOutcome, List.countP_append, List.countP_cons, isPublish]
  by_cases h6 : e.type = "soft_reactivate"
  · rw [handlerBranch_softReactivate env e h6]
    simp [softReactivateHandler, finishOutcome, List.countP_append, List.countP_cons, isPublish]
  by_cases h7 : e.type = "push_bouncer_update_for_realm"
  · rw [handlerBranch_bouncer env e h7]
    simp [pushBouncerUpdateForRealm, finishOutcome, List.countP_append, List.countP_cons,
      isPublish]
  · rw [handlerBranch_unknown env e (by
      simp [knownTypes]
      exact ⟨h1, hne, h3, h4, h5, h6, h7⟩)]
    simp [finishOutcome, List.countP_cons, isPublish]

/-! Claim theorems. -/

/-- Claim C1 (amended): for every realm_export job whose status record is
loaded (rather than freshly created) and is already terminal, the handler
never invokes the export operation, the record results in FAILED status with
exactly one observer notification and no propagated exception; a record
already FAILED keeps its status, while a COMPLETED record is transitioned to
FAILED, so only FAILED (not every terminal state) is absorbing. -/
theorem realm_export_terminal_redelivery (env : Env) (e : Event)
    (ht : e.type = "realm_export")
    (hload : e.realm_export_id.isSome = true ∨ env.auditRowId.isSome = true)
    (hterm : env.exportRow.status.isTerminal = true) :
    Effect.exportOp ∉ (consume env e).effects
    ∧ (consume env e).row.status = ExportStatus.FAILED
    ∧ (consume env e).effects.countP isNotifyExport = 1
    ∧ (env.exportRow.status = ExportStatus.FAILED →
        (consume env e).row.status = env.exportRow.status)
    ∧ (consume env e).raised = none := by
  have hloadr : loadExportRow env e = (env.exportRow, []) := loadExportRow_lookup env e hload
  have hrow : (loadExportRow env e).1.status ≠ ExportStatus.REQUESTED := by
    rw [hloadr]
    cases hst : env.exportRow.status <;> simp_all [ExportStatus.isTerminal]
  rw [consume_def, handlerBranch_realmExport env e ht, realmExport_shortCircuit env e hrow,
    hloadr]
  refine ⟨?_, rfl, ?_, fun hF => by simp [finishOutcome, hF], rfl⟩
  · simp [finishOutcome]
  · simp [finishOutcome, List.countP_cons, isNotifyExport]

/-- Claim C1 witness at a concrete COMPLETED record. -/
theorem realm_export_terminal_redelivery_witness :
    Effect.exportOp ∉ (consume cenv1 cev1).effects
    ∧ (consume cenv1 cev1).row.status = ExportStatus.FAILED
    ∧ (consume cenv1 cev1).effects.countP isNotifyExport = 1
    ∧ (cenv1.exportRow.status = ExportStatus.FAILED →
        (consume cenv1 cev1).row.status = cenv1.exportRow.status)
    ∧ (consume cenv1 cev1).raised = none :=
  realm_export_terminal_redelivery cenv1 cev1 rfl (Or.inl (by decide)) (by decide)

/-- Claim C1 counterexample: a COMPLETED (terminal) record is transitioned
again, to FAILED, by a redelivered event, so terminal states are not
absorbing as the claim states. -/
theorem realm_export_completed_transitioned_again :
    cenv1.exportRow.status = ExportStatus.COMPLETED
    ∧ (consume cenv1 cev1).row.status ≠ cenv1.exportRow.status := by
  decide

/-- Claim C2: for every realm_export job found REQUESTED whose export
operation raises, the handler catches the exception, logs the elapsed time,
the status record ends FAILED with a failure timestamp, observers are
notified exactly once, and nothing propagates. -/
theorem realm_export_exception_handled (env : Env) (e : Event)
    (ht : e.type = "realm_export")
    (hrow : (loadExportRow env e).1.status = ExportStatus.REQUESTED)
    (hf : env.exportFails = true) :
    (consume env e).raised = none
    ∧ (consume env e).row.status = ExportStatus.FAILED
    ∧ (consume env e).row.date_failed = some env.now
    ∧ Effect.logNum "Data export failed after" (env.tFail - env.wallStart)
        ∈ (consume env e).effects
    ∧ (consume env e).effects.countP isNotifyExport = 1 := by
  rw [consume_def, handlerBranch_realmExport env e ht, realmExport_failPath env e hrow hf]
  have hload := countP_loadEffects env e isNotifyExport (fun _ => rfl) rfl
  simp [finishOutcome, List.countP_append, List.countP_cons, isNotifyExport, hload]

/-- Claim C2 witness at a concrete failing export. -/
theorem realm_export_exception_handled_witness :
    (consume cenv2 cev1).raised = none
    ∧ (consume cenv2 cev1).row.status = ExportStatus.FAILED
    ∧ (consume cenv2 cev1).row.date_failed = some cenv2.now
    ∧ Effect.logNum "Data export failed after" (cenv2.tFail - cenv2.wallStart)
        ∈ (consume cenv2 cev1).effects
    ∧ (consume cenv2 cev1).effects.countP isNotifyExport = 1 :=
  realm_export_exception_handled cenv2 cev1 rfl (by decide) (by decide)

/-- Claim C3 (amended): every realm_export job that ends in failure, by
redelivery short-circuit or by an exception during the export, sends exactly
one notification to observers and none to the initiating actor (the direct
message to the initiator is sent only on the success path). -/
theorem realm_export_failure_notifications (env : Env) (e : Event)
    (ht : e.type = "realm_export")
    (hfail : (loadExportRow env e).1.status ≠ ExportStatus.REQUESTED
      ∨ env.exportFails = true) :
    (consume env e).effects.countP isNotifyExport = 1
    ∧ (consume env e).effects.countP isSendDM = 0 := by
  have hl1 := countP_loadEffects env e isNotifyExport (fun _ => rfl) rfl
  have hl2 := countP_loadEffects env e isSendDM (fun _ => rfl) rfl
  by_cases hrow : (loadExportRow env e).1.status = ExportStatus.REQUESTED
  · have hf : env.exportFails = true := by
      rcases hfail with h | h
      · exact absurd hrow h
      · exact h
    rw [consume_def, handlerBranch_realmExport env e ht, realmExport_failPath env e hrow hf]
    simp [finishOutcome, List.countP_append, List.countP_cons, isNotifyExport, isSendDM, hl1, hl2]
  · rw [consume_def, handlerBranch_realmExport env e ht, realmExport_shortCircuit env e hrow]
    simp [finishOutcome, List.countP_append, List.countP_cons, isNotifyExport, isSendDM, hl1, hl2]

/-- Claim C3 witness at a concrete redelivery short-circuit. -/
theorem realm_export_failure_notifications_witness :
    (consume cenv1 cev1).effects.countP isNotifyExport = 1
    ∧ (consume cenv1 cev1).effects.countP isSendDM = 0 :=
  realm_export_failure_notifications cenv1 cev1 rfl (Or.inl (by decide))

/-- Claim C3 counterexample: on the redelivery failure path the initiating
actor receives zero notifications, not exactly one as the claim states. -/
theorem realm_export_failure_no_actor_dm :
    ((loadExportRow cenv1 cev1).1.status ≠ ExportStatus.REQUESTED)
    ∧ ¬ ((consume cenv1 cev1).effects.countP isSendDM = 1) := by
  decide

theorem handlerBranch_ok_no_processedLog (env : Env) (e : Event)
    (h1 : returnsEarly env e = false) (h2 : raisesOut env e = false) :
    ∃ effs row, handlerBranch env e = .ok effs row ∧ effs.countP isProcessedLog = 0 := by
  by_cases t1 : e.type = "mark_stream_messages_as_read"
  · exact ⟨_, _, handlerBranch_markRead env e t1,
      by simp [markStreamMessagesAsRead, List.countP_cons, isProcessedLog,
        countP_markReadEffects isProcessedLog (fun _ _ => rfl) rfl]⟩
  by_cases t2 : e.type = "mark_stream_messages_as_read_for_everyone"
  · have hmap := countP_map_update isProcessedLog (fun _ => rfl)
    cases hma : (markAll env.messageIds env.exceeded (e.min_id.getD 0)).2 with
    | none =>
      have heq : markAllForEveryone env e
          = .ok ((Effect.log "Marking messages as read for all users"
                :: (markAll env.messageIds env.exceeded (e.min_id.getD 0)).1.map
                    Effect.updateReadFlags)
              ++ []
              ++ [Effect.logNum "Marked messages as read for all users"
                  (((markAll env.messageIds env.exceeded (e.min_id.getD 0)).1.map
                      List.length).sum)])
            env.exportRow := by
        simp only [markAllForEveryone, hma]
      exact ⟨_, _, (handlerBranch_forEveryone env e t2).trans heq,
        by simp [List.countP_append, List.countP_cons, isProcessedLog, hmap]⟩
    | some m =>
      have heq : markAllForEveryone env e
          = .ok ((Effect.log "Marking messages as read for all users"
                :: (markAll env.messageIds env.exceeded (e.min_id.getD 0)).1.map
                    Effect.updateReadFlags)
              ++ [Effect.publish "deferred_work" { e with min_id := some m }]
              ++ [Effect.logNum "Marked messages as read for all users"
                  (((markAll env.messageIds env.exceeded (e.min_id.getD 0)).1.map
                      List.length).sum)])
            env.exportRow := by
        simp only [markAllForEveryone, hma]
      exact ⟨_, _, (handlerBranch_forEveryone env e t2).trans heq,
        by simp [List.countP_append, List.countP_cons, isProcessedLog, hmap]⟩
  by_cases t3 : e.type = "clear_push_device_tokens"
  · cases hc : env.clearResult with
    | ok =>
      have heq : clearPushDeviceTokens env e
          = .ok [Effect.log "Clearing push device tokens",
                 Effect.clearTokens e.user_profile_id] env.exportRow := by
        simp only [clearPushDeviceTokens, hc]
      exact ⟨_, _, (handlerBranch_clear env e t3).trans heq,
        by simp [List.countP_cons, isProcessedLog]⟩
    | bouncerRetryLater =>
      have heq : clearPushDeviceTokens env e
          = .ok ([Effect.log "Clearing push device tokens",
                  Effect.clearTokens e.user_profile_id]
              ++ retry_event env.attempts e failure_processor) env.exportRow := by
        simp only [clearPushDeviceTokens, hc]
      refine ⟨_, _, (handlerBranch_clear env e t3).trans heq, ?_⟩
      by_cases hr : MAX_REQUEST_RETRIES < env.attempts + 1 <;>
        simp [retry_event, failure_processor, hr, List.countP_append, List.countP_cons,
          isProcessedLog]
    | raiseOther s =>
      exfalso
      rw [raisesOut, t3, hc] at h2
      simp at h2
  by_cases t4 : e.type = "realm_export"
  · have hre : ¬ ((loadExportRow env e).1.status ≠ ExportStatus.REQUESTED
        ∨ env.exportFails = true) := by
      intro hcon
      rw [returnsEarly, t4] at h1
      simp at h1
      rcases hcon with h | h
      · exact h h1.1
      · rw [h1.2] at h
        exact Bool.false_ne_true h
    push_neg at hre
    obtain ⟨hrow, hf⟩ := hre
    refine ⟨_, _,
      (handlerBranch_realmExport env e t4).trans
        (realmExport_successPath env e hrow (by simpa using hf)), ?_⟩
    have hload := countP_loadEffects env e isProcessedLog (fun _ => rfl) rfl
    by_cases hd : e.realm_export_id.isNone <;>
      simp [List.countP_append, List.countP_cons, isProcessedLog, hload, hd]
  by_cases t5 : e.type = "reupload_realm_emoji"
  · exact ⟨_, _, handlerBranch_reupload env e t5,
      by simp [reuploadRealmEmoji, List.countP_cons, isProcessedLog]⟩
  by_cases t6 : e.type = "soft_reactivate"
  · exact ⟨_, _, handlerBranch_softReactivate env e t6,
      by simp [softReactivateHandler, List.countP_cons, isProcessedLog]⟩
  by_cases t7 : e.type = "push_bouncer_update_for_realm"
  · exact ⟨_, _, handlerBranch_bouncer env e t7,
      by simp [pushBouncerUpdateForRealm, List.countP_cons, isProcessedLog]⟩
  · exact ⟨[], env.exportRow,
      handlerBranch_unknown env e (by
        simp [knownTypes]
        exact ⟨t1, t2, t3, t4, t5, t6, t7⟩),
      rfl⟩

/-- Claim C4 (amended): for every consumed job event that neither takes one
of the early-return paths of the realm_export branch (redelivery
short-circuit or export failure) nor propagates an exception out of the
handler, the dispatcher emits exactly one structured completion log carrying
the event type and the measured wall-clock duration, as the final effect;
the early-return paths emit no completion log. -/
theorem consume_completion_log (env : Env) (e : Event)
    (h1 : returnsEarly env e = false) (h2 : raisesOut env e = false) :
    (consume env e).effects.countP isProcessedLog = 1
    ∧ (consume env e).effects.getLast?
        = some (Effect.processedLog e.type ((env.wallEnd - env.wallStart) * 1000)) := by
  obtain ⟨effs, row, hbr, hcnt⟩ := handlerBranch_ok_no_processedLog env e h1 h2
  rw [consume_def, hbr]
  constructor
  · simp [finishOutcome, List.countP_append, List.countP_cons, isProcessedLog, hcnt]
  · simp [finishOutcome, List.getLast?_concat]

/-- Claim C4 witness at a concrete soft_reactivate event. -/
theorem consume_completion_log_witness :
    (consume baseEnv cev4).effects.countP isProcessedLog = 1
    ∧ (consume baseEnv cev4).effects.getLast?
        = some (Effect.processedLog cev4.type ((baseEnv.wallEnd - baseEnv.wallStart) * 1000)) :=
  consume_completion_log baseEnv cev4 (by decide) (by decide)

/-- Claim C4 counterexample: a realm_export event hitting the redelivery
short-circuit returns early, and the dispatcher emits no completion log at
all for it, contradicting the for-every-event claim. -/
theorem consume_no_completion_log_on_early_return :
    returnsEarly cenv1 cev1 = true
    ∧ (consume cenv1 cev1).effects.countP isProcessedLog = 0 := by
  decide

set_option maxRecDepth 40000 in
/-- Claim C5: over a target set of 120 records with batch size 50 and the
time budget exceeded after 2 batches, the engine commits exactly the two
full batches 1-50 and 51-100, stops with cursor 100 (the key of the 100th
record), publishes exactly one continuation event carrying min_id 100, and
the invocation resumed from that event commits exactly the remaining batch
101-120 and publishes no continuation. -/
theorem batch_engine_concrete_scenario :
    ((consume cenv5 cev5).effects.filterMap batchOf
        = [List.range' 1 50, List.range' 51 50])
    ∧ ((markAll cenv5.messageIds cenv5.exceeded 0).2 = some 100)
    ∧ ((consume cenv5 cev5).effects.countP isPublish = 1)
    ∧ (Effect.publish "deferred_work" cev5c ∈ (consume cenv5 cev5).effects)
    ∧ ((consume cenv5 cev5c).effects.filterMap batchOf = [List.range' 101 20])
    ∧ ((consume cenv5 cev5c).effects.countP isPublish = 0) := by
  decide

/-- Claim C6: every continuation event the batch engine publishes goes to
the deferred_work queue and agrees with the original event on every field
except min_id, which is set to the cursor the loop stopped at. -/
theorem continuation_event_fields (env : Env) (e : Event) (q : String) (ev : Event)
    (hp : Effect.publish q ev ∈ (consume env e).effects) :
    q = "deferred_work"
    ∧ ev.type = e.type
    ∧ ev.user_profile_id = e.user_profile_id
    ∧ ev.stream_recipient_ids = e.stream_recipient_ids
    ∧ ev.stream_recipient_id = e.stream_recipient_id
    ∧ ev.realm_export_id = e.realm_export_id
    ∧ ev.id = e.id
    ∧ ev.time = e.time
    ∧ ev.realm_id = e.realm_id
    ∧ (markAll env.messageIds env.exceeded (e.min_id.getD 0)).2 = ev.min_id := by
  by_cases ht : e.type = "mark_stream_messages_as_read_for_everyone"
  · obtain ⟨m, hm, hq, hev⟩ := publish_in_trace env e q ev ht hp
    subst hev
    exact ⟨hq, rfl, rfl, rfl, rfl, rfl, rfl, rfl, rfl, by rw [hm]⟩
  · exfalso
    have hz := no_publish_other env e ht
    exact (List.countP_eq_zero.mp hz _ hp) rfl

/-- Claim C6 witness at a concrete budget-exceeded run. -/
theorem continuation_event_fields_witness :
    "deferred_work" = "deferred_work"
    ∧ cev6c.type = cev6.type
    ∧ cev6c.user_profile_id = cev6.user_profile_id
    ∧ cev6c.stream_recipient_ids = cev6.stream_recipient_ids
    ∧ cev6c.stream_recipient_id = cev6.stream_recipient_id
    ∧ cev6c.realm_export_id = cev6.realm_export_id
    ∧ cev6c.id = cev6.id
    ∧ cev6c.time = cev6.time
    ∧ cev6c.realm_id = cev6.realm_id
    ∧ (markAll cenv6.messageIds cenv6.exceeded (cev6.min_id.getD 0)).2 = cev6c.min_id :=
  continuation_event_fields cenv6 cev6 "deferred_work" cev6c (by decide)

/-- Claim C7: over a strictly id-sorted record set, any redelivery sequence
of the batch engine commits batches whose concatenation is exactly the
records beyond the initial cursor (each selected once), the continuation
cursors form a strictly increasing chain above the initial cursor, every
committed batch is internally in ascending key order with every key above
the initial cursor, and from cursor 0 over positive keys the full target
set is covered. -/
theorem batch_cursor_monotonic_cover (ids : List Nat) (oracles : Nat → Nat → Bool)
    (minId : Nat) (hs : List.Pairwise (· < ·) ids) :
    ((runSequence ids oracles minId).1.flatten = ids.filter (gtF minId))
    ∧ List.Chain (· < ·) minId (runSequence ids oracles minId).2
    ∧ ((runSequence ids oracles minId).1.all
        (fun b => decide (List.Pairwise (· < ·) b) && b.all (gtF minId)) = true)
    ∧ (minId = 0 → ids.all (gtF 0) = true →
        (runSequence ids oracles 0).1.flatten = ids) := by
  obtain ⟨s1, s2, s3⟩ := runSequence_spec ids hs oracles minId
  refine ⟨s1, s2, ?_, ?_⟩
  · rw [List.all_eq_true]
    intro b hb
    obtain ⟨hp, hgt⟩ := s3 b hb
    rw [Bool.and_eq_true]
    refine ⟨decide_eq_true hp, ?_⟩
    rw [List.all_eq_true]
    intro x hx
    exact decide_eq_true (hgt x hx)
  · intro h0 hall
    subst h0
    rw [s1]
    exact List.filter_eq_self.mpr (fun a ha => List.all_eq_true.mp hall a ha)

/-- Claim C7 witness on a small sorted record set. -/
theorem batch_cursor_monotonic_cover_witness :
    ((runSequence [1, 2, 3] (fun _ _ => false) 0).1.flatten = [1, 2, 3].filter (gtF 0))
    ∧ List.Chain (· < ·) 0 (runSequence [1, 2, 3] (fun _ _ => false) 0).2
    ∧ ((runSequence [1, 2, 3] (fun _ _ => false) 0).1.all
        (fun b => decide (List.Pairwise (· < ·) b) && b.all (gtF 0)) = true)
    ∧ (0 = 0 → [1, 2, 3].all (gtF 0) = true →
        (runSequence [1, 2, 3] (fun _ _ => false) 0).1.flatten = [1, 2, 3]) :=
  batch_cursor_monotonic_cover [1, 2, 3] (fun _ _ => false) 0 (by decide)

/-- Claim C10: a mark_stream_messages_as_read_for_everyone event without a
min_id field starts at cursor 0, so over positive keys the first committed
batch is the first batch_size records of the target set; with min_id
present, every record every committed batch touches has key strictly above
that value. -/
theorem min_id_defaulting (env : Env) (e : Event) (m : Nat)
    (ht : e.type = "mark_stream_messages_as_read_for_everyone") :
    (e.min_id = none → env.messageIds.all (gtF 0) = true →
        ((consume env e).effects.filterMap batchOf).head?
          = some (env.messageIds.take batch_size))
    ∧ (e.min_id = some m →
        ((consume env e).effects.filterMap batchOf).all
          (fun b => b.all (gtF m)) = true) := by
  constructor
  · intro hn hall
    rw [batches_in_trace env e ht, hn]
    simp only [Option.getD_none]
    rw [markAll_head]
    have hfilter : env.messageIds.filter (gtF 0) = env.messageIds :=
      List.filter_eq_self.mpr (fun a ha => List.all_eq_true.mp hall a ha)
    rw [hfilter]
  · intro hm
    rw [batches_in_trace env e ht, hm]
    simp only [Option.getD_some]
    rw [List.all_eq_true]
    intro b hb
    rw [List.all_eq_true]
    intro x hx
    exact decide_eq_true (markAll_batch_gt env.messageIds env.exceeded m b hb x hx)

/-- Claim C10 witness at a concrete continuation event carrying min_id. -/
theorem min_id_defaulting_witness :
    (cev5c.min_id = none → cenv5.messageIds.all (gtF 0) = true →
        ((consume cenv5 cev5c).effects.filterMap batchOf).head?
          = some (cenv5.messageIds.take batch_size))
    ∧ (cev5c.min_id = some 100 →
        ((consume cenv5 cev5c).effects.filterMap batchOf).all
          (fun b => b.all (gtF 100)) = true) :=
  min_id_defaulting cenv5 cev5c 100 rfl

theorem consume_clear_bouncer (env : Env) (e : Event)
    (ht : e.type = "clear_push_device_tokens") (a : Nat) :
    consume { env with clearResult := .bouncerRetryLater, attempts := a } e
      = { effects := ([Effect.log "Clearing push device tokens",
              Effect.clearTokens e.user_profile_id]
            ++ retry_event a e failure_processor)
            ++ [Effect.processedLog e.type ((env.wallEnd - env.wallStart) * 1000)],
          row := env.exportRow, raised := none } := by
  rw [consume_def, handlerBranch_clear _ e ht]
  simp [clearPushDeviceTokens, finishOutcome]

theorem retrySequence_succ (base : Env) (e : Event) (fuel a : Nat) :
    retrySequence base e (fuel + 1) a
      = if (consume { base with clearResult := .bouncerRetryLater, attempts := a } e
            ).effects.countP isRetrySubmit = 0
        then (consume { base with clearResult := .bouncerRetryLater, attempts := a } e).effects
        else (consume { base with clearResult := .bouncerRetryLater, attempts := a } e).effects
              ++ retrySequence base e fuel (a + 1) := rfl

theorem retrySequence_counts (env : Env) (e : Event)
    (ht : e.type = "clear_push_device_tokens") :
    ∀ fuel a, a + fuel = MAX_REQUEST_RETRIES + 1 → a ≤ MAX_REQUEST_RETRIES →
      (retrySequence env e fuel a).countP isLogTerminal = 1
      ∧ (retrySequence env e fuel a).countP isRetrySubmit = fuel - 1 := by
  intro fuel
  induction fuel with
  | zero =>
    intro a ha hb
    exfalso
    omega
  | succ fuel ih =>
    intro a ha hb
    rw [retrySequence_succ, consume_clear_bouncer env e ht a]
    by_cases hA : MAX_REQUEST_RETRIES < a + 1
    · have hfuel0 : fuel = 0 := by omega
      rw [if_pos (by
        simp [retry_event, hA, failure_processor, List.countP_append, List.countP_cons,
          isRetrySubmit])]
      subst hfuel0
      constructor
      · simp [retry_event, hA, failure_processor, List.countP_append, List.countP_cons,
          isLogTerminal]
      · simp [retry_event, hA, failure_processor, List.countP_append, List.countP_cons,
          isRetrySubmit]
    · have hrec := ih (a + 1) (by omega) (by omega)
      rw [if_neg (by
        simp [retry_event, hA, List.countP_append, List.countP_cons, isRetrySubmit])]
      constructor
      · rw [List.countP_append, hrec.1]
        simp [retry_event, hA, List.countP_append, List.countP_cons, isLogTerminal]
      · rw [List.countP_append, hrec.2]
        have h1 : (([Effect.log "Clearing push device tokens",
              Effect.clearTokens e.user_profile_id]
            ++ retry_event a e failure_processor)
            ++ [Effect.processedLog e.type
                ((env.wallEnd - env.wallStart) * 1000)]).countP isRetrySubmit = 1 := by
          simp [retry_event, hA, List.countP_append, List.countP_cons, isRetrySubmit]
        rw [h1]
        omega

/-- Claim C8: for clear_push_device_tokens events, a transient bouncer
failure re-submits the same event for retry while the handler returns
normally; the terminal-failure processor only logs; delivered repeatedly
with the bouncer failing transiently every time, the terminal handler runs
exactly once after the maximum attempt count, with exactly the maximum
number of re-submissions; and a non-transient exception is not caught and
propagates out of the handler. -/
theorem clear_push_retry_policy (env : Env) (e : Event) (s : String)
    (ht : e.type = "clear_push_device_tokens") :
    (env.clearResult = ClearOutcome.bouncerRetryLater →
        env.attempts + 1 ≤ MAX_REQUEST_RETRIES →
        Effect.retrySubmit e ∈ (consume env e).effects ∧ (consume env e).raised = none)
    ∧ ((failure_processor e).all isLog = true)
    ∧ ((retrySequence env e (MAX_REQUEST_RETRIES + 1) 0).countP isLogTerminal = 1)
    ∧ ((retrySequence env e (MAX_REQUEST_RETRIES + 1) 0).countP isRetrySubmit
        = MAX_REQUEST_RETRIES)
    ∧ (env.clearResult = ClearOutcome.raiseOther s →
        (consume env e).raised = some (PyErr.otherError s)) := by
  refine ⟨?_, rfl, ?_, ?_, ?_⟩
  · intro hc hmax
    rw [consume_def, handlerBranch_clear env e ht]
    have hite : retry_event env.attempts e failure_processor = [Effect.retrySubmit e] := by
      unfold retry_event
      rw [if_neg (by omega)]
    constructor
    · simp [clearPushDeviceTokens, hc, hite, finishOutcome]
    · simp [clearPushDeviceTokens, hc, finishOutcome]
  · exact (retrySequence_counts env e ht (MAX_REQUEST_RETRIES + 1) 0 (by omega) (by omega)).1
  · have h := (retrySequence_counts env e ht (MAX_REQUEST_RETRIES + 1) 0 (by omega) (by omega)).2
    simpa using h
  · intro hc
    rw [consume_def, handlerBranch_clear env e ht]
    simp [clearPushDeviceTokens, hc, finishOutcome]

/-- Claim C8 witness at a concrete transiently-failing event. -/
theorem clear_push_retry_policy_witness :
    (cenv8.clearResult = ClearOutcome.bouncerRetryLater →
        cenv8.attempts + 1 ≤ MAX_REQUEST_RETRIES →
        Effect.retrySubmit cev8 ∈ (consume cenv8 cev8).effects
        ∧ (consume cenv8 cev8).raised = none)
    ∧ ((failure_processor cev8).all isLog = true)
    ∧ ((retrySequence cenv8 cev8 (MAX_REQUEST_RETRIES + 1) 0).countP isLogTerminal = 1)
    ∧ ((retrySequence cenv8 cev8 (MAX_REQUEST_RETRIES + 1) 0).countP isRetrySubmit
        = MAX_REQUEST_RETRIES)
    ∧ (cenv8.clearResult = ClearOutcome.raiseOther "boom" →
        (consume cenv8 cev8).raised = some (PyErr.otherError "boom")) :=
  clear_push_retry_policy cenv8 cev8 "boom" rfl

/-- Claim C9: the if/elif dispatch chain coincides with a single lookup in
a type-indexed dispatch table (so each event is routed to exactly one
handler branch, with no fallthrough), and an event whose type matches no
known handler produces only logging: no other effect, no exception, and an
unchanged status row. -/
theorem dispatch_single_branch (env : Env) (e : Event) :
    handlerBranch env e = dispatchTable env e
    ∧ (e.type ∉ knownTypes →
        (consume env e).effects.all isLog = true
        ∧ (consume env e).raised = none
        ∧ (consume env e).row = env.exportRow) := by
  constructor
  · by_cases t1 : e.type = "mark_stream_messages_as_read"
    · rw [handlerBranch_markRead env e t1, dispatchTable, handlerTable, t1]
      simp [List.find?]
    by_cases t2 : e.type = "mark_stream_messages_as_read_for_everyone"
    · rw [handlerBranch_forEveryone env e t2, dispatchTable, handlerTable, t2]
      simp [List.find?]
    by_cases t3 : e.type = "clear_push_device_tokens"
    · rw [handlerBranch_clear env e t3, dispatchTable, handlerTable, t3]
      simp [List.find?]
    by_cases t4 : e.type = "realm_export"
    · rw [handlerBranch_realmExport env e t4, dispatchTable, handlerTable, t4]
      simp [List.find?]
    by_cases t5 : e.type = "reupload_realm_emoji"
    · rw [handlerBranch_reupload env e t5, dispatchTable, handlerTable, t5]
      simp [List.find?]
    by_cases t6 : e.type = "soft_reactivate"
    · rw [handlerBranch_softReactivate env e t6, dispatchTable, handlerTable, t6]
      simp [List.find?]
    by_cases t7 : e.type = "push_bouncer_update_for_realm"
    · rw [handlerBranch_bouncer env e t7, dispatchTable, handlerTable, t7]
      simp [List.find?]
    · rw [handlerBranch_unknown env e (by
        simp [knownTypes]
        exact ⟨t1, t2, t3, t4, t5, t6, t7⟩)]
      have f1 : (("mark_stream_messages_as_read" : String) == e.type) = false :=
        beq_eq_false_iff_ne.mpr (fun hh => t1 hh.symm)
      have f2 : (("mark_stream_messages_as_read_for_everyone" : String) == e.type) = false :=
        beq_eq_false_iff_ne.mpr (fun hh => t2 hh.symm)
      have f3 : (("clear_push_device_tokens" : String) == e.type) = false :=
        beq_eq_false_iff_ne.mpr (fun hh => t3 hh.symm)
      have f4 : (("realm_export" : String) == e.type) = false :=
        beq_eq_false_iff_ne.mpr (fun hh => t4 hh.symm)
      have f5 : (("reupload_realm_emoji" : String) == e.type) = false :=
        beq_eq_false_iff_ne.mpr (fun hh => t5 hh.symm)
      have f6 : (("soft_reactivate" : String) == e.type) = false :=
        beq_eq_false_iff_ne.mpr (fun hh => t6 hh.symm)
      have f7 : (("push_bouncer_update_for_realm" : String) == e.type) = false :=
        beq_eq_false_iff_ne.mpr (fun hh => t7 hh.symm)
      rw [dispatchTable, handlerTable]
      simp [List.find?, f1, f2, f3, f4, f5, f6, f7]
  · intro hunk
    rw [consume_def, handlerBranch_unknown env e hunk]
    refine ⟨?_, rfl, rfl⟩
    simp [finishOutcome, isLog]

/-- Claim C9 witness at a concrete unknown-typed event. -/
theorem dispatch_single_branch_witness :
    handlerBranch baseEnv cev9u = dispatchTable baseEnv cev9u
    ∧ (cev9u.type ∉ knownTypes →
        (consume baseEnv cev9u).effects.all isLog = true
        ∧ (consume baseEnv cev9u).raised = none
        ∧ (consume baseEnv cev9u).row = baseEnv.exportRow) :=
  dispatch_single_branch baseEnv cev9u

end DeferredWork
